import Mathlib

/-!
Shallow embedding of the interview-preparation application:
the data model (`types.ts`), the AI gateway (`services/geminiService.ts`),
and the session/question state machine of the root `App` component,
together with proofs of the specification's claims about them.

Remote calls are modelled by an oracle value passed to each operation:
`Except Unit (Option String)` stands for the outcome of the single
network round trip (a transport error, or a response whose `text`
field may be absent). `JSON.parse` plus schema checking is modelled by
an abstract `parse` function argument. `Date.now()` is passed in as a
`Nat` argument `now`. Each operation that may issue a gateway call
also returns the number of calls it issued.
-/

/-- Data model: one follow-up exchange (`FollowUp` in `types.ts`). -/
structure FollowUp where
  id : String
  question : String
  answer : String
  timestamp : Nat
deriving DecidableEq

/-- Difficulty ranks of `InterviewQuestion.difficulty` in `types.ts`. -/
inductive Difficulty where
  | Junior
  | Mid
  | Senior
  | Expert
deriving DecidableEq

/-- Source tag of `InterviewQuestion.source` in `types.ts`. -/
inductive QuestionSource where
  | tech
  | project
deriving DecidableEq

/-- Data model: one interview question (`InterviewQuestion` in `types.ts`).
Optional string fields are `Option String` (TS `undefined` is `none`);
the optional boolean loading flags are modelled as `Bool` because the
code only ever reads them in boolean position, where `undefined` and
`false` coincide. -/
structure InterviewQuestion where
  id : String
  category : String
  question : String
  difficulty : Difficulty
  source : QuestionSource
  answer : Option String
  userAnswer : Option String
  isAnswerLoading : Bool
  followUps : Option (List FollowUp)
  isFollowUpLoading : Bool
deriving DecidableEq

/-- The ten technology topics of `enum TechStack` in `types.ts`. -/
inductive TechStack where
  | JavaScript
  | TypeScript
  | React
  | Vue
  | Angular
  | NextJS
  | NodeJS
  | CSS_HTML
  | Performance
  | Security
deriving DecidableEq

/-- Data model: one stored session (`InterviewSession` in `types.ts`). -/
structure InterviewSession where
  id : String
  timestamp : Nat
  selectedStacks : List TechStack
  projectDescription : String
  questions : List InterviewQuestion
deriving DecidableEq

/-- Data model: the active application state (`GeneratorState` in `types.ts`). -/
structure GeneratorState where
  selectedStacks : List TechStack
  projectDescription : String
  questions : List InterviewQuestion
  isGenerating : Bool
  error : Option String
  history : List InterviewSession
  isHistoryOpen : Bool
  questionCount : Nat
  currentSessionId : Option String
deriving DecidableEq

/-- The `viewMode` component state of `App` (`'setup' | 'interview'`). -/
inductive ViewMode where
  | setup
  | interview
deriving DecidableEq

/-- The full component state of `App`: the `GeneratorState` plus the two
separate `useState` hooks `viewMode` and `currentQuestionIndex`. -/
structure AppState where
  gen : GeneratorState
  viewMode : ViewMode
  currentQuestionIndex : Nat
deriving DecidableEq

/-- One entry of the JSON response schema of question generation
(`GeneratedQuestion` in `geminiService.ts`). -/
structure GeneratedQuestion where
  category : String
  question : String
  difficulty : Difficulty
deriving DecidableEq

/-- The parsed JSON response of question generation: the object with the
two arrays `tech_questions` and `project_questions`, either of which may
be absent (the code applies `|| []` to each). -/
structure QuestionsResponse where
  tech_questions : Option (List GeneratedQuestion)
  project_questions : Option (List GeneratedQuestion)
deriving DecidableEq

/-- The failure modes of `generateQuestions`: its own precondition check,
a transport failure of the round trip, the `"No data received"` check on
an absent or empty response text, and a `JSON.parse`/schema failure. -/
inductive GenError where
  | invalidInput
  | network
  | noData
  | parseFailure
deriving DecidableEq

/-- The JS `String.prototype.trim()`: strip whitespace from both ends.
(The embedding counts characters rather than UTF-16 code units.) -/
def jsTrim (s : String) : String :=
  String.mk (((s.data.dropWhile Char.isWhitespace).reverse.dropWhile
    Char.isWhitespace).reverse)

/-- Formatting of one entry of `tech_questions` into an `InterviewQuestion`
(the first `.map` in `generateQuestions`): id `q-tech-${timestamp}-${index}`,
`tech` source, no feedback, empty user answer, no follow-ups. -/
def formatTechQ (timestamp : Nat) (index : Nat) (q : GeneratedQuestion) : InterviewQuestion :=
  { id := "q-tech-" ++ toString timestamp ++ "-" ++ toString index
    category := q.category
    question := q.question
    difficulty := q.difficulty
    source := QuestionSource.tech
    answer := none
    userAnswer := some ""
    isAnswerLoading := false
    followUps := some []
    isFollowUpLoading := false }

/-- Formatting of one entry of `project_questions` (the second `.map` in
`generateQuestions`): id `q-proj-${timestamp}-${index}`, `project` source. -/
def formatProjQ (timestamp : Nat) (index : Nat) (q : GeneratedQuestion) : InterviewQuestion :=
  { id := "q-proj-" ++ toString timestamp ++ "-" ++ toString index
    category := q.category
    question := q.question
    difficulty := q.difficulty
    source := QuestionSource.project
    answer := none
    userAnswer := some ""
    isAnswerLoading := false
    followUps := some []
    isFollowUpLoading := false }

/-- `generateQuestions` from `geminiService.ts`. Inputs beyond the three
source-code parameters: the oracle `remote` for the network round trip,
the abstract `parse` for `JSON.parse` plus schema reading, and `timestamp`
for `Date.now()`. Returns the result together with the number of network
calls issued. `totalCount` only parametrizes the prompt sent to the remote
model and does not otherwise influence the computation. -/
def generateQuestions («stacks» : List TechStack) (description : String) (totalCount : Nat)
    (remote : Except Unit (Option String)) (parse : String → Option QuestionsResponse)
    (timestamp : Nat) : Except GenError (List InterviewQuestion) × Nat :=
  let _ := totalCount
  let hasStack := «stacks».length > 0
  let hasProject := (jsTrim description).length > 0
  if ¬hasStack ∧ ¬hasProject then
    (Except.error GenError.invalidInput, 0)
  else
    match remote with
    | Except.error _ => (Except.error GenError.network, 1)
    | Except.ok text =>
      match text with
      | none => (Except.error GenError.noData, 1)
      | some jsonText =>
        if jsonText = "" then (Except.error GenError.noData, 1)
        else
          match parse jsonText with
          | none => (Except.error GenError.parseFailure, 1)
          | some rawData =>
            let techQs := rawData.tech_questions.getD []
            let projQs := rawData.project_questions.getD []
            (Except.ok (techQs.mapIdx (formatTechQ timestamp) ++
                        projQs.mapIdx (formatProjQ timestamp)), 1)

/-- `generateAnswer` from `geminiService.ts`: the feedback generation call.
The prompt construction (which branches on whether a user answer was
supplied) does not affect the returned value, which depends only on the
oracle outcome: `response.text || "暂时无法生成回答。"` on success
(the placeholder also covers an empty text, which is falsy), and the
fixed error string from the `catch` block on a transport failure.
The function is total: no exception reaches the caller. -/
def generateAnswer (question : String) («stacks» : List TechStack) (context : String)
    (userAnswer : Option String) (remote : Except Unit (Option String)) : String :=
  let _ := (question, «stacks», context, userAnswer)
  match remote with
  | Except.error _ => "错误：无法检索 AI 建议。"
  | Except.ok text =>
    match text with
    | none => "暂时无法生成回答。"
    | some s => if s = "" then "暂时无法生成回答。" else s

/-- `generateFollowUp` from `geminiService.ts`: the follow-up reply call.
Same shape as `generateAnswer` with its own fixed `catch` string. -/
def generateFollowUp (originalQuestion : String) («stacks» : List TechStack) (context : String)
    (userOriginalAnswer : Option String) (aiOriginalFeedback : Option String)
    (followUpQuestion : String) (previousFollowUps : List FollowUp)
    (remote : Except Unit (Option String)) : String :=
  let _ := (originalQuestion, «stacks», context, userOriginalAnswer, aiOriginalFeedback,
            followUpQuestion, previousFollowUps)
  match remote with
  | Except.error _ => "错误：无法检索 AI 回复。"
  | Except.ok text =>
    match text with
    | none => "暂时无法生成回答。"
    | some s => if s = "" then "暂时无法生成回答。" else s

/-- `syncWithHistory` from `App`: the write-through step. If a session
identifier is bound, the session with that identifier in the history list
gets the updated question sequence; all other sessions are mapped through
unchanged. With no bound identifier the history is left as it was. In
either case the active question sequence becomes `updatedQuestions`. -/
def syncWithHistory (prev : GeneratorState) (updatedQuestions : List InterviewQuestion) :
    GeneratorState :=
  let updatedHistory :=
    match prev.currentSessionId with
    | some sid =>
      prev.history.map fun session =>
        if session.id = sid then { session with questions := updatedQuestions } else session
    | none => prev.history
  { prev with questions := updatedQuestions, history := updatedHistory }

/-- `handleUpdateUserAnswer` from `App`: edit the user answer of the
question with the given id, routed through `syncWithHistory`. -/
def handleUpdateUserAnswer (questionId : String) (text : String) (prev : GeneratorState) :
    GeneratorState :=
  let updatedQuestions :=
    prev.questions.map fun q => if q.id = questionId then { q with userAnswer := some text } else q
  syncWithHistory prev updatedQuestions

/-- The first `setState` commit of `handleGetAnswer` in `App`: set the
`isAnswerLoading` flag of the matching question. Note this commit does
not go through `syncWithHistory`. -/
def handleGetAnswerStart (questionId : String) (prev : GeneratorState) : GeneratorState :=
  { prev with questions :=
      prev.questions.map fun q =>
        if q.id = questionId then { q with isAnswerLoading := true } else q }

/-- The `setState` commit of `handleGetAnswer` after the gateway call
resolves: store the feedback text, clear the flag, and write through. -/
def handleGetAnswerSuccess (questionId : String) (answer : String) (prev : GeneratorState) :
    GeneratorState :=
  let updatedQuestions :=
    prev.questions.map fun q =>
      if q.id = questionId then { q with answer := some answer, isAnswerLoading := false } else q
  syncWithHistory prev updatedQuestions

/-- The `catch` commit of `handleGetAnswer`: clear the flag only, without
`syncWithHistory`. (Unreachable in the sequential model because
`generateAnswer` is total, but present in the source.) -/
def handleGetAnswerFailure (questionId : String) (prev : GeneratorState) : GeneratorState :=
  { prev with questions :=
      prev.questions.map fun q =>
        if q.id = questionId then { q with isAnswerLoading := false } else q }

/-- `handleGetAnswer` from `App`, whole flow: look up the question in the
pre-call state; if absent return at once with no gateway call; otherwise
commit the loading flag, run `generateAnswer` on the pre-call question's
text, and commit the result. Returns the final state and the number of
gateway calls issued. -/
def handleGetAnswer (questionId : String) (userAnswer : String)
    (remote : Except Unit (Option String)) (state : GeneratorState) : GeneratorState × Nat :=
  match state.questions.find? (fun q => q.id = questionId) with
  | none => (state, 0)
  | some questionObj =>
    let loading := handleGetAnswerStart questionId state
    let answer := generateAnswer questionObj.question state.selectedStacks
      state.projectDescription (some userAnswer) remote
    (handleGetAnswerSuccess questionId answer loading, 1)

/-- `handleGetFeedback` from the `QuestionCard` component: the only caller
of `onGetAnswer` (= `handleGetAnswer`). The gateway call is issued only
when the question's feedback is still falsy (absent or empty) and no
feedback request is in flight; otherwise the handler only toggles the
component-local `isOpen` display flag, which is not part of this state.
The user answer passed along is `question.userAnswer || ''`. -/
def handleGetFeedback (questionId : String) (remote : Except Unit (Option String))
    (state : GeneratorState) : GeneratorState × Nat :=
  match state.questions.find? (fun q => q.id = questionId) with
  | none => (state, 0)
  | some q =>
    if q.answer.getD "" = "" ∧ q.isAnswerLoading = false then
      handleGetAnswer questionId (q.userAnswer.getD "") remote state
    else (state, 0)

/-- The first `setState` commit of `handleAskFollowUp` in `App`: set the
`isFollowUpLoading` flag of the matching question (no `syncWithHistory`). -/
def handleAskFollowUpStart (questionId : String) (prev : GeneratorState) : GeneratorState :=
  { prev with questions :=
      prev.questions.map fun q =>
        if q.id = questionId then { q with isFollowUpLoading := true } else q }

/-- The `setState` commit of `handleAskFollowUp` after the gateway call
resolves: append the new exchange to `followUps || []`, clear the flag,
and write through. -/
def handleAskFollowUpSuccess (questionId : String) (newFollowUp : FollowUp)
    (prev : GeneratorState) : GeneratorState :=
  let updatedQuestions :=
    prev.questions.map fun q =>
      if q.id = questionId then
        { q with isFollowUpLoading := false,
                 followUps := some (q.followUps.getD [] ++ [newFollowUp]) }
      else q
  syncWithHistory prev updatedQuestions

/-- `handleAskFollowUp` from `App`, whole flow. `now` stands for the two
`Date.now()` reads that produce the new exchange's id and timestamp.
Returns the final state and the number of gateway calls issued. -/
def handleAskFollowUp (questionId : String) (followUpQuestion : String)
    (remote : Except Unit (Option String)) (now : Nat) (state : GeneratorState) :
    GeneratorState × Nat :=
  match state.questions.find? (fun q => q.id = questionId) with
  | none => (state, 0)
  | some questionObj =>
    let loading := handleAskFollowUpStart questionId state
    let followUpAnswer := generateFollowUp questionObj.question state.selectedStacks
      state.projectDescription questionObj.userAnswer questionObj.answer
      followUpQuestion (questionObj.followUps.getD []) remote
    let newFollowUp : FollowUp :=
      { id := toString now, question := followUpQuestion,
        answer := followUpAnswer, timestamp := now }
    (handleAskFollowUpSuccess questionId newFollowUp loading, 1)

/-- `handleGenerate` from `App`, whole flow on the full component state.
The validation guard rejects before any gateway call exactly when no
stack is selected and the trimmed description is shorter than 5; the
rejection only sets the inline error message. On success a new session
is created from `Date.now()`, prepended to the history, and bound; the
view switches to interview mode at index 0. On a generation failure only
the flag and the error message change. -/
def handleGenerate (remote : Except Unit (Option String))
    (parse : String → Option QuestionsResponse) (now : Nat) (app : AppState) :
    AppState × Nat :=
  let state := app.gen
  if state.selectedStacks.length = 0 ∧ (jsTrim state.projectDescription).length < 5 then
    ({ app with gen := { state with error := some "请选择技术栈或填写项目描述。" } }, 0)
  else
    let s1 := { state with isGenerating := true, error := none,
                           questions := ([] : List InterviewQuestion) }
    match generateQuestions state.selectedStacks state.projectDescription state.questionCount
        remote parse now with
    | (Except.ok questions, calls) =>
      let newSession : InterviewSession :=
        { id := toString now, timestamp := now, selectedStacks := state.selectedStacks,
          projectDescription := state.projectDescription, questions := questions }
      ({ gen := { s1 with questions := questions, isGenerating := false,
                          currentSessionId := some newSession.id,
                          history := newSession :: s1.history },
         viewMode := ViewMode.interview, currentQuestionIndex := 0 }, calls)
    | (Except.error _, calls) =>
      ({ app with gen := { s1 with isGenerating := false,
                                   error := some "生成题目失败，请检查网络连接或重试。" } }, calls)

/-- `deleteHistoryItem` from `App`: remove the sessions with the given id. -/
def deleteHistoryItem (id : String) (prev : GeneratorState) : GeneratorState :=
  { prev with history := prev.history.filter fun h => ¬(h.id = id) }

/-- `loadHistoryItem` from `App`: install a stored session's data as the
active state verbatim, bind its id, close the history view, and enter
interview mode at index 0. -/
def loadHistoryItem (session : InterviewSession) (app : AppState) : AppState :=
  { gen := { app.gen with selectedStacks := session.selectedStacks,
                          projectDescription := session.projectDescription,
                          questions := session.questions,
                          isHistoryOpen := false,
                          currentSessionId := some session.id },
    viewMode := ViewMode.interview, currentQuestionIndex := 0 }

/-- `handleNext` from `App`: advance the cursor only when strictly below
the last index. The comparison is on integers, as in the source, so an
empty sequence (length minus one is `-1`) also leaves the cursor at 0. -/
def handleNext (app : AppState) : AppState :=
  if (app.currentQuestionIndex : Int) < (app.gen.questions.length : Int) - 1 then
    { app with currentQuestionIndex := app.currentQuestionIndex + 1 }
  else app

/-- `handlePrev` from `App`: move the cursor back only when above 0. -/
def handlePrev (app : AppState) : AppState :=
  if app.currentQuestionIndex > 0 then
    { app with currentQuestionIndex := app.currentQuestionIndex - 1 }
  else app

/-!
The debounced persistence effect of `App` (the `useEffect` keyed on
`state.history`): every history change clears the previously scheduled
timer and schedules a write of the new list 1000 ms later; when a
scheduled timer fires, the snapshot is written only if it is non-empty.
We model it as a small trace machine: `PersistEvent.change h t` is a
history change committed at time `t` (running the effect: clear the old
timeout, schedule a new one), and `PersistEvent.fire t` is the scheduled
timeout callback running at time `t`. `writes` records every
`localStorage.setItem` performed, in order.
-/

/-- An event of the persistence trace. -/
inductive PersistEvent where
  | change (h : List InterviewSession) (t : Nat)
  | fire (t : Nat)
deriving DecidableEq

/-- The persistence machine state: the pending debounce timer (its due
time and the history snapshot it closed over), and the log of writes. -/
structure PersistState where
  timer : Option (Nat × List InterviewSession)
  writes : List (List InterviewSession)
deriving DecidableEq

/-- One step of the persistence machine. -/
def persistStep (st : PersistState) (e : PersistEvent) : PersistState :=
  match e with
  | PersistEvent.change h t => { st with timer := some (t + 1000, h) }
  | PersistEvent.fire t =>
    match st.timer with
    | some (due, h) =>
      if due ≤ t then
        { timer := none, writes := st.writes ++ (if h.length > 0 then [h] else []) }
      else st
    | none => st

/-- Run the persistence machine from the mount state (no timer, no writes). -/
def persistRun (events : List PersistEvent) : PersistState :=
  events.foldl persistStep { timer := none, writes := [] }

/-- The write-through invariant of §3 of the spec: if a session identifier
is bound, every history entry carrying that identifier stores exactly the
active question sequence. -/
def WriteThrough (st : GeneratorState) : Prop :=
  ∀ sid, st.currentSessionId = some sid →
    ∀ s ∈ st.history, s.id = sid → s.questions = st.questions

/-- Feedback immutability for one state transition: a question that is
present (found by id) with a non-empty feedback text before the
transition is still present afterwards with the same feedback text. -/
def PreservesFeedback (op : GeneratorState → GeneratorState) : Prop :=
  ∀ st qid q a, st.questions.find? (fun x => x.id = qid) = some q →
    q.answer = some a → a ≠ "" →
    ∃ q', (op st).questions.find? (fun x => x.id = qid) = some q' ∧ q'.answer = some a

/-- A concrete unanswered question, used in concrete runs. -/
def exQ1 : InterviewQuestion :=
  { id := "1", category := "c", question := "q", difficulty := Difficulty.Junior,
    source := QuestionSource.tech, answer := none, userAnswer := some "",
    isAnswerLoading := false, followUps := some [], isFollowUpLoading := false }

/-- A concrete question that already carries feedback. -/
def exQ2 : InterviewQuestion :=
  { exQ1 with id := "2", answer := some "feedback text" }

/-- A concrete stored session holding `exQ1`. -/
def exSession1 : InterviewSession :=
  { id := "s", timestamp := 0, selectedStacks := [], projectDescription := "",
    questions := [exQ1] }

/-- A concrete state bound to `exSession1`, satisfying the write-through
invariant before any mutation. -/
def exState1 : GeneratorState :=
  { selectedStacks := [], projectDescription := "", questions := [exQ1],
    isGenerating := false, error := none, history := [exSession1],
    isHistoryOpen := false, questionCount := 5, currentSessionId := some "s" }

/-- A concrete state whose single question carries feedback. -/
def exState2 : GeneratorState :=
  { exState1 with questions := [exQ2],
                  history := [{ exSession1 with questions := [exQ2] }] }

/-- A second concrete stored session with a different identifier. -/
def exSession2 : InterviewSession :=
  { exSession1 with id := "s2" }

/-- A concrete state whose history holds two sessions, bound to `"s"`. -/
def exState3 : GeneratorState :=
  { exState1 with history := [exSession1, exSession2] }

/-- The single question of `exState1` after a concrete user-answer edit. -/
def exQ1Edited : InterviewQuestion :=
  { exQ1 with userAnswer := some "my answer" }

/-- The bound session after the same concrete user-answer edit. -/
def exSession1Edited : InterviewSession :=
  { exSession1 with questions := [exQ1Edited] }

/-- A concrete full component state around `exState1`. -/
def exApp1 : AppState :=
  { gen := exState1, viewMode := ViewMode.interview, currentQuestionIndex := 0 }

/-- A concrete full component state with two active questions. -/
def exApp2 : AppState :=
  { gen := { exState1 with questions := [exQ1, exQ2] },
    viewMode := ViewMode.interview, currentQuestionIndex := 0 }

/-- A concrete generated-question entry of a parsed response. -/
def exGenQ : GeneratedQuestion :=
  { category := "c", question := "q1", difficulty := Difficulty.Junior }

/-- A concrete parsed response holding one tech question and no project
questions. -/
def c3resp : QuestionsResponse :=
  { tech_questions := some [exGenQ], project_questions := some [] }

/-- A concrete parse oracle returning `c3resp` for every response text. -/
def c3parse : String → Option QuestionsResponse :=
  fun _ => some c3resp

/-!
Helper development: `toString : Nat → String` (i.e. `Nat.repr`) is
injective. Needed to show the generated question identifiers
`q-tech-${timestamp}-${index}` are unique within a sequence. We invert
the printer with a decimal decoder.
-/

/-- Decimal value of a digit character. -/
def charDigitVal (c : Char) : Nat := c.toNat - '0'.toNat

/-- Decimal decoding of a digit string; inverts `Nat.toDigits 10`. -/
def decodeDigits (l : List Char) : Nat :=
  l.foldl (fun acc c => acc * 10 + charDigitVal c) 0

theorem charDigitVal_digitChar : ∀ d, d < 10 → charDigitVal (Nat.digitChar d) = d := by decide

theorem toDigitsCore_append_eq (fuel : Nat) : ∀ (n : Nat) (ds : List Char),
    Nat.toDigitsCore 10 fuel n ds = Nat.toDigitsCore 10 fuel n [] ++ ds := by
  induction fuel with
  | zero => intro n ds; simp [Nat.toDigitsCore]
  | succ fuel ih =>
    intro n ds
    simp only [Nat.toDigitsCore]
    by_cases h : n / 10 = 0
    · simp [h]
    · simp only [h, if_neg, ite_false]
      rw [ih (n / 10) (Nat.digitChar (n % 10) :: ds), ih (n / 10) [Nat.digitChar (n % 10)]]
      simp

theorem toDigitsCore_fuel_eq (n : Nat) : ∀ f f' : Nat, n < f → n < f' →
    Nat.toDigitsCore 10 f n [] = Nat.toDigitsCore 10 f' n [] := by
  induction n using Nat.strong_induction_on with
  | _ n ih =>
    intro f f' hf hf'
    match f, f' with
    | f + 1, f' + 1 =>
      simp only [Nat.toDigitsCore]
      by_cases h : n / 10 = 0
      · simp [h]
      · simp only [h, if_neg, ite_false]
        have hdiv : n / 10 < n := Nat.div_lt_self (Nat.pos_of_ne_zero (by
          intro h0; rw [h0] at h; exact h (by decide))) (by decide)
        rw [toDigitsCore_append_eq f (n / 10), toDigitsCore_append_eq f' (n / 10)]
        rw [ih (n / 10) hdiv f f' (by omega) (by omega)]

theorem decodeDigits_toDigits (n : Nat) : decodeDigits (Nat.toDigits 10 n) = n := by
  induction n using Nat.strong_induction_on with
  | _ n ih =>
    show decodeDigits (Nat.toDigitsCore 10 (n + 1) n []) = n
    simp only [Nat.toDigitsCore]
    by_cases h : n / 10 = 0
    · have hn : n < 10 := by omega
      simp only [h, ite_true]
      show decodeDigits [Nat.digitChar (n % 10)] = n
      rw [Nat.mod_eq_of_lt hn]
      simp [decodeDigits, charDigitVal_digitChar n hn]
    · simp only [h, if_neg, ite_false]
      have hpos : 0 < n := Nat.pos_of_ne_zero (by
        intro h0; rw [h0] at h; exact h (by decide))
      have hdiv : n / 10 < n := Nat.div_lt_self hpos (by decide)
      rw [toDigitsCore_append_eq n (n / 10)]
      rw [toDigitsCore_fuel_eq (n / 10) n (n / 10 + 1) (by omega) (Nat.lt_succ_self _)]
      have hrec := ih (n / 10) hdiv
      show decodeDigits (Nat.toDigits 10 (n / 10) ++ [Nat.digitChar (n % 10)]) = n
      simp only [decodeDigits, List.foldl_append, List.foldl_cons, List.foldl_nil]
      have : (Nat.toDigits 10 (n / 10)).foldl (fun acc c => acc * 10 + charDigitVal c) 0
          = n / 10 := hrec
      rw [this, charDigitVal_digitChar (n % 10) (Nat.mod_lt n (by decide))]
      omega

theorem natToString_injective : Function.Injective (fun n : Nat => toString n) := by
  intro m n h
  have hm : toString m = (Nat.toDigits 10 m).asString := rfl
  have hn : toString n = (Nat.toDigits 10 n).asString := rfl
  simp only at h
  rw [hm, hn] at h
  have hdata : Nat.toDigits 10 m = Nat.toDigits 10 n := congrArg String.data h
  have := decodeDigits_toDigits m
  rw [hdata, decodeDigits_toDigits n] at this
  exact this.symm

theorem techId_inj (T : Nat) {i j : Nat} (h : i ≠ j) :
    "q-tech-" ++ toString T ++ "-" ++ toString i ≠
      "q-tech-" ++ toString T ++ "-" ++ toString j := by
  intro heq
  apply h
  apply natToString_injective
  show toString i = toString j
  have hd := congrArg String.data heq
  simp only [String.data_append, List.append_assoc, List.append_cancel_left_eq] at hd
  exact String.ext hd

theorem projId_inj (T : Nat) {i j : Nat} (h : i ≠ j) :
    "q-proj-" ++ toString T ++ "-" ++ toString i ≠
      "q-proj-" ++ toString T ++ "-" ++ toString j := by
  intro heq
  apply h
  apply natToString_injective
  show toString i = toString j
  have hd := congrArg String.data heq
  simp only [String.data_append, List.append_assoc, List.append_cancel_left_eq] at hd
  exact String.ext hd

theorem techId_ne_projId (T T' i j : Nat) :
    "q-tech-" ++ toString T ++ "-" ++ toString i ≠
      "q-proj-" ++ toString T' ++ "-" ++ toString j := by
  intro heq
  have hd := congrArg String.data heq
  simp only [String.data_append, List.append_assoc] at hd
  have hpre := List.append_inj_left hd (by decide)
  exact absurd hpre (by decide)


/-- C9: invoking previous-question navigation at index 0 and next-question
navigation at the last index are no-ops (no wraparound); in every other
case the cursor moves by exactly one and, starting from a valid index,
stays a valid index into the active question sequence. -/
theorem claimC9_cursor_bounds (app : AppState) :
    (app.currentQuestionIndex = 0 → handlePrev app = app) ∧
    (app.currentQuestionIndex = app.gen.questions.length - 1 → handleNext app = app) ∧
    (0 < app.currentQuestionIndex →
      handlePrev app = { app with currentQuestionIndex := app.currentQuestionIndex - 1 } ∧
      (app.currentQuestionIndex < app.gen.questions.length →
        (handlePrev app).currentQuestionIndex < app.gen.questions.length)) ∧
    ((app.currentQuestionIndex : Int) < (app.gen.questions.length : Int) - 1 →
      handleNext app = { app with currentQuestionIndex := app.currentQuestionIndex + 1 } ∧
      (handleNext app).currentQuestionIndex < app.gen.questions.length) := by
  refine ⟨?_, ?_, ?_, ?_⟩
  · intro h
    unfold handlePrev
    rw [if_neg]
    omega
  · intro h
    unfold handleNext
    rw [if_neg]
    omega
  · intro h
    refine ⟨by unfold handlePrev; rw [if_pos h], ?_⟩
    intro hv
    unfold handlePrev
    rw [if_pos h]
    show app.currentQuestionIndex - 1 < app.gen.questions.length
    omega
  · intro h
    refine ⟨by unfold handleNext; rw [if_pos h], ?_⟩
    unfold handleNext
    rw [if_pos h]
    show app.currentQuestionIndex + 1 < app.gen.questions.length
    omega

/-- C9 witness: at a one-question state the cursor is pinned at both ends;
at a two-question state "next" from 0 lands on the valid index 1. -/
theorem claimC9_cursor_bounds_wit :
    handlePrev exApp1 = exApp1 ∧ handleNext exApp1 = exApp1 ∧
    handleNext exApp2 = { exApp2 with currentQuestionIndex := 1 } ∧
    (handleNext exApp2).currentQuestionIndex < exApp2.gen.questions.length := by
  refine ⟨(claimC9_cursor_bounds exApp1).1 rfl,
          (claimC9_cursor_bounds exApp1).2.1 (by decide), ?_, ?_⟩
  · exact ((claimC9_cursor_bounds exApp2).2.2.2 (by decide)).1
  · exact ((claimC9_cursor_bounds exApp2).2.2.2 (by decide)).2

/-- C10: when the given question identifier is not present in the active
question sequence, both `handleGetAnswer` and `handleAskFollowUp` return
the state unchanged with zero gateway calls issued — the `if (!questionObj)
return` guard fires before any other work. -/
theorem claimC10_absent_id_noop (st : GeneratorState) (qid ua fu : String)
    (remote : Except Unit (Option String)) (now : Nat)
    (h : st.questions.find? (fun q => q.id = qid) = none) :
    handleGetAnswer qid ua remote st = (st, 0) ∧
    handleAskFollowUp qid fu remote now st = (st, 0) := by
  constructor
  · unfold handleGetAnswer
    rw [h]
  · unfold handleAskFollowUp
    rw [h]

/-- C10 witness: the theorem applied at a state that has no question with
id `"missing"`. -/
theorem claimC10_absent_id_noop_wit :
    handleGetAnswer "missing" "" (Except.ok (some "t")) exState1 = (exState1, 0) ∧
    handleAskFollowUp "missing" "f" (Except.ok (some "t")) 7 exState1 = (exState1, 0) :=
  claimC10_absent_id_noop exState1 "missing" "" "f" (Except.ok (some "t")) 7 (by decide)

/-- C4: the feedback and follow-up gateway operations are total functions
into displayable text: a transport error yields the operation's fixed
error string, an absent or empty response text yields the fixed
placeholder string, and otherwise the response text itself is returned.
No exception reaches the caller on any oracle outcome. -/
theorem claimC4_no_throw (question context : String) (sks : List TechStack)
    (ua uoa aof : Option String) (fq : String) (prevs : List FollowUp) :
    (generateAnswer question sks context ua (Except.error ()) = "错误：无法检索 AI 建议。") ∧
    (generateAnswer question sks context ua (Except.ok none) = "暂时无法生成回答。") ∧
    (generateAnswer question sks context ua (Except.ok (some "")) = "暂时无法生成回答。") ∧
    (∀ s, s ≠ "" → generateAnswer question sks context ua (Except.ok (some s)) = s) ∧
    (generateFollowUp question sks context uoa aof fq prevs (Except.error ()) =
      "错误：无法检索 AI 回复。") ∧
    (generateFollowUp question sks context uoa aof fq prevs (Except.ok none) =
      "暂时无法生成回答。") ∧
    (generateFollowUp question sks context uoa aof fq prevs (Except.ok (some "")) =
      "暂时无法生成回答。") ∧
    (∀ s, s ≠ "" → generateFollowUp question sks context uoa aof fq prevs
      (Except.ok (some s)) = s) := by
  refine ⟨rfl, rfl, by simp [generateAnswer], ?_, rfl, rfl, by simp [generateFollowUp], ?_⟩
  · intro s hs
    simp [generateAnswer, hs]
  · intro s hs
    simp [generateFollowUp, hs]

/-- C4 witness: the theorem applied with a concrete non-empty response. -/
theorem claimC4_no_throw_wit :
    generateAnswer "q" [] "" none (Except.ok (some "ok text")) = "ok text" ∧
    generateFollowUp "q" [] "" none none "f" [] (Except.ok (some "ok text")) = "ok text" :=
  ⟨(claimC4_no_throw "q" "" [] none none none "f" []).2.2.2.1 "ok text" (by decide),
   (claimC4_no_throw "q" "" [] none none none "f" []).2.2.2.2.2.2.2 "ok text" (by decide)⟩

theorem syncWithHistory_writeThrough (prev : GeneratorState) (upd : List InterviewQuestion) :
    WriteThrough (syncWithHistory prev upd) := by
  intro sid hsid s hs hid
  have hcur : (syncWithHistory prev upd).currentSessionId = prev.currentSessionId := rfl
  rw [hcur] at hsid
  show s.questions = upd
  simp only [syncWithHistory, hsid] at hs
  rcases List.mem_map.mp hs with ⟨t, ht, hfeq⟩
  by_cases hcase : t.id = sid
  · rw [← hfeq]
    simp [hcase]
  · rw [← hfeq] at hid
    simp only [hcase, if_neg, ite_false] at hid

/-- C8: the frame property of the write-through step. With no bound
session identifier the session list is returned untouched; with a bound
identifier the list keeps its length and every entry whose identifier
differs from the bound one is returned at its position completely
unchanged (hence same identifier, timestamp, topic selection,
description and questions). -/
theorem claimC8_sync_frame (prev : GeneratorState) (upd : List InterviewQuestion) :
    (prev.currentSessionId = none → (syncWithHistory prev upd).history = prev.history) ∧
    (∀ sid, prev.currentSessionId = some sid →
      (syncWithHistory prev upd).history.length = prev.history.length ∧
      (∀ (i : Nat) (s : InterviewSession), prev.history[i]? = some s → ¬(s.id = sid) →
        (syncWithHistory prev upd).history[i]? = some s)) := by
  constructor
  · intro h
    simp [syncWithHistory, h]
  · intro sid h
    constructor
    · simp [syncWithHistory, h]
    · intro i s hs hid
      simp only [syncWithHistory, h]
      rw [List.getElem?_map, hs]
      simp [hid]

/-- C8 witness: syncing two sessions where only `"s"` is bound leaves the
other session `"s2"` unchanged at its position. -/
theorem claimC8_sync_frame_wit :
    (syncWithHistory exState3 []).history.length = 2 ∧
    (syncWithHistory exState3 []).history[1]? = some exSession2 := by
  have h := (claimC8_sync_frame exState3 []).2 "s" rfl
  exact ⟨h.1, h.2 1 exSession2 rfl (by decide)⟩

/-- C1 counterexample: the loading-flag commit of `handleGetAnswer` is a
mutation of the active question sequence that is not routed through
`syncWithHistory`. Starting from `exState1`, where the bound session
`"s"` stores exactly the active sequence, the commit leaves the bound
session's stored questions different from the new active questions. -/
theorem claimC1_cex :
    exState1.questions = exSession1.questions ∧
    (handleGetAnswerStart "1" exState1).currentSessionId = some "s" ∧
    (handleGetAnswerStart "1" exState1).history = [exSession1] ∧
    exSession1.id = "s" ∧
    ¬((handleGetAnswerStart "1" exState1).questions = exSession1.questions) := by
  refine ⟨rfl, rfl, rfl, rfl, by decide⟩

/-- C1 amended: the write-through invariant holds immediately after the
mutations that are routed through `syncWithHistory` — a user-answer edit,
a feedback arrival, a follow-up arrival — and after the commit of a
successful generation binding a fresh session identifier; it does not
hold after the loading-flag commits or after the question-clearing commit
at the start of a generation request, which touch only the active
sequence (see the counterexample). -/
theorem claimC1_write_through :
    (∀ prev qid text, WriteThrough (handleUpdateUserAnswer qid text prev)) ∧
    (∀ prev qid ans, WriteThrough (handleGetAnswerSuccess qid ans prev)) ∧
    (∀ prev qid fu, WriteThrough (handleAskFollowUpSuccess qid fu prev)) ∧
    (∀ app remote parse now qs n,
      ¬(app.gen.selectedStacks.length = 0 ∧ (jsTrim app.gen.projectDescription).length < 5) →
      generateQuestions app.gen.selectedStacks app.gen.projectDescription
        app.gen.questionCount remote parse now = (Except.ok qs, n) →
      (∀ s ∈ app.gen.history, ¬(s.id = toString now)) →
      WriteThrough (handleGenerate remote parse now app).1.gen) := by
  refine ⟨?_, ?_, ?_, ?_⟩
  · intro prev qid text
    exact syncWithHistory_writeThrough prev _
  · intro prev qid ans
    exact syncWithHistory_writeThrough prev _
  · intro prev qid fu
    exact syncWithHistory_writeThrough prev _
  · intro app remote parse now qs n hguard hgen hfresh
    unfold handleGenerate
    rw [if_neg hguard, hgen]
    intro sid hsid s hs hid
    have hside : sid = toString now := (Option.some.inj hsid).symm
    rcases List.mem_cons.mp hs with hnew | hold
    · rw [hnew]
    · exact absurd (hside ▸ hid) (hfresh s hold)

/-- C1 amended witness: a user-answer edit at `exState1` applied through
the theorem: the bound session's stored questions equal the new active
questions. -/
theorem claimC1_write_through_wit :
    exSession1Edited ∈ (handleUpdateUserAnswer "1" "my answer" exState1).history ∧
    exSession1Edited.questions = (handleUpdateUserAnswer "1" "my answer" exState1).questions := by
  refine ⟨by decide, ?_⟩
  exact claimC1_write_through.1 exState1 "1" "my answer" "s" rfl exSession1Edited
    (by decide) (by decide)

theorem persistStep_writes_nonempty (st : PersistState) (e : PersistEvent)
    (h : ∀ w ∈ st.writes, w ≠ []) : ∀ w ∈ (persistStep st e).writes, w ≠ [] := by
  cases e with
  | change hist t => exact h
  | fire t =>
    cases htimer : st.timer with
    | none => simpa [persistStep, htimer] using h
    | some p =>
      obtain ⟨due, hist⟩ := p
      by_cases hdue : due ≤ t
      · intro w hw
        simp only [persistStep, htimer, hdue, if_pos] at hw
        rcases List.mem_append.mp hw with hw | hw
        · exact h w hw
        · by_cases hlen : hist.length > 0
          · simp only [hlen, if_pos, List.mem_singleton] at hw
            subst hw
            intro hnil
            rw [hnil] at hlen
            simp at hlen
          · simp [hlen] at hw
      · simpa [persistStep, htimer, hdue] using h

theorem persistFold_writes_nonempty (events : List PersistEvent) :
    ∀ st : PersistState, (∀ w ∈ st.writes, w ≠ []) →
      ∀ w ∈ (events.foldl persistStep st).writes, w ≠ [] := by
  induction events with
  | nil => intro st h; exact h
  | cons e es ih => intro st h; exact ih _ (persistStep_writes_nonempty st e h)

/-- C7: the debounced persistence effect never writes an empty session
list — in particular not on the initial empty state of the very first
load — and a history change to a non-empty list whose debounce quiet
period of 1000 ms elapses with no further change is written when the
scheduled timer fires. -/
theorem claimC7_debounce (events pre : List PersistEvent)
    (hist : List InterviewSession) (t : Nat) :
    (∀ w ∈ (persistRun events).writes, w ≠ []) ∧
    (hist ≠ [] → hist ∈ (persistRun (pre ++ [PersistEvent.change hist t,
        PersistEvent.fire (t + 1000)])).writes) := by
  constructor
  · exact persistFold_writes_nonempty events _ (by simp)
  · intro hne
    unfold persistRun
    rw [List.foldl_append]
    simp only [List.foldl_cons, List.foldl_nil]
    simp only [persistStep]
    rw [if_pos (le_refl (t + 1000))]
    have hlen : hist.length > 0 := List.length_pos.mpr hne
    simp [hlen]

/-- C7 witness: a first load of the empty list never writes, and a change
to a one-session list is written when its timer fires. -/
theorem claimC7_debounce_wit :
    (∀ w ∈ (persistRun [PersistEvent.change [] 0, PersistEvent.fire 1000]).writes, w ≠ []) ∧
    [exSession1] ∈ (persistRun [PersistEvent.change [] 0,
        PersistEvent.change [exSession1] 5, PersistEvent.fire 1005]).writes := by
  constructor
  · exact (claimC7_debounce [PersistEvent.change [] 0, PersistEvent.fire 1000] [] [] 0).1
  · exact (claimC7_debounce [] [PersistEvent.change [] 0] [exSession1] 5).2 (by decide)

/-- C5: `handleGenerate` rejects with the Invalid-Input inline message,
before any gateway call and with all other state unchanged, exactly when
no stack is selected and the trimmed description is shorter than 5
characters; on every other input neither the Invalid-Input message nor
the `generateQuestions`-internal invalid-input failure can arise. -/
theorem claimC5_invalid_input (app : AppState) (remote : Except Unit (Option String))
    (parse : String → Option QuestionsResponse) (now : Nat) :
    (app.gen.selectedStacks.length = 0 ∧ (jsTrim app.gen.projectDescription).length < 5 →
      handleGenerate remote parse now app =
        ({ app with gen := { app.gen with error := some "请选择技术栈或填写项目描述。" } }, 0)) ∧
    (¬(app.gen.selectedStacks.length = 0 ∧ (jsTrim app.gen.projectDescription).length < 5) →
      ¬((handleGenerate remote parse now app).1.gen.error =
          some "请选择技术栈或填写项目描述。") ∧
      ¬((generateQuestions app.gen.selectedStacks app.gen.projectDescription
          app.gen.questionCount remote parse now).1 = Except.error GenError.invalidInput)) := by
  constructor
  · intro h
    unfold handleGenerate
    rw [if_pos h]
  · intro h
    constructor
    · unfold handleGenerate
      rw [if_neg h]
      rcases hgen : generateQuestions app.gen.selectedStacks app.gen.projectDescription
          app.gen.questionCount remote parse now with ⟨res, calls⟩
      cases res with
      | ok qs => simp
      | error e =>
        simp only
        intro hc
        have := Option.some.inj hc
        exact absurd this (by decide)
    · have hguard : ¬(¬(app.gen.selectedStacks.length > 0) ∧
          ¬((jsTrim app.gen.projectDescription).length > 0)) := by
        intro hgg
        exact h ⟨by omega, by omega⟩
      simp only [generateQuestions]
      rw [if_neg hguard]
      cases remote with
      | error e => simp
      | ok text =>
        cases text with
        | none => simp
        | some jsonText =>
          by_cases hj : jsonText = ""
          · simp [hj]
          · cases hp : parse jsonText with
            | none => simp [hj, hp]
            | some rawData => simp [hj, hp]

/-- C5 witness: `exApp1` (no stack, empty description) is rejected with
the inline message and zero calls; selecting a stack averts both the
Invalid-Input message and the internal invalid-input failure. -/
theorem claimC5_invalid_input_wit :
    handleGenerate (Except.ok (some "x")) c3parse 9 exApp1 =
      ({ exApp1 with gen := { exApp1.gen with error := some "请选择技术栈或填写项目描述。" } },
        0) ∧
    ¬((handleGenerate (Except.ok (some "x")) c3parse 9
        { exApp1 with gen := { exState1 with
            selectedStacks := [TechStack.TypeScript] } }).1.gen.error =
      some "请选择技术栈或填写项目描述。") := by
  constructor
  · exact (claimC5_invalid_input exApp1 (Except.ok (some "x")) c3parse 9).1 (by decide)
  · exact ((claimC5_invalid_input
      { exApp1 with gen := { exState1 with selectedStacks := [TechStack.TypeScript] } }
      (Except.ok (some "x")) c3parse 9).2 (by decide)).1

/-- C3 counterexample: a successful generation run with a valid input
(topic selection `[TypeScript]`) and requested count 3 whose parsed
response holds a single tech question returns a sequence of length 1,
not 3 — the requested count is never enforced on the response. -/
theorem claimC3_cex :
    (generateQuestions [TechStack.TypeScript] "" 3 (Except.ok (some "x")) c3parse 0).1 =
      Except.ok [formatTechQ 0 0
        exGenQ] ∧
    ¬(([formatTechQ 0 0
        exGenQ] :
        List InterviewQuestion).length = 3) := by
  exact ⟨rfl, by decide⟩

theorem generateQuestions_ok_inv {sks : List TechStack} {description : String}
    {totalCount : Nat} {remote : Except Unit (Option String)}
    {parse : String → Option QuestionsResponse} {ts : Nat}
    {qs : List InterviewQuestion} {n : Nat}
    (h : generateQuestions sks description totalCount remote parse ts = (Except.ok qs, n)) :
    ∃ jsonText rawData, remote = Except.ok (some jsonText) ∧ ¬(jsonText = "") ∧
      parse jsonText = some rawData ∧ n = 1 ∧
      qs = (rawData.tech_questions.getD []).mapIdx (formatTechQ ts) ++
           (rawData.project_questions.getD []).mapIdx (formatProjQ ts) := by
  simp only [generateQuestions] at h
  by_cases hg : ¬(sks.length > 0) ∧ ¬((jsTrim description).length > 0)
  · rw [if_pos hg] at h
    simp at h
  · rw [if_neg hg] at h
    cases remote with
    | error e => simp at h
    | ok text =>
      cases text with
      | none => simp at h
      | some jsonText =>
        by_cases hj : jsonText = ""
        · simp [hj] at h
        · cases hp : parse jsonText with
          | none => simp [hj, hp] at h
          | some rawData =>
            simp only [hj, hp, if_neg, ite_false] at h
            simp only [Prod.mk.injEq, Except.ok.injEq] at h
            exact ⟨jsonText, rawData, rfl, hj, hp, h.2.symm, h.1.symm⟩

/-- C3 amended: a successful generation returns exactly the formatted
concatenation of the two arrays of the parsed response — tech-derived
entries first — so its length equals the total number of questions the
remote model returned, not necessarily the requested count, which only
parametrizes the prompt. -/
theorem claimC3_length (sks : List TechStack) (description : String)
    (totalCount : Nat) (remote : Except Unit (Option String))
    (parse : String → Option QuestionsResponse) (ts : Nat)
    (qs : List InterviewQuestion) (n : Nat)
    (h : generateQuestions sks description totalCount remote parse ts = (Except.ok qs, n)) :
    ∃ jsonText rawData, remote = Except.ok (some jsonText) ∧
      parse jsonText = some rawData ∧
      qs = (rawData.tech_questions.getD []).mapIdx (formatTechQ ts) ++
           (rawData.project_questions.getD []).mapIdx (formatProjQ ts) ∧
      qs.length = (rawData.tech_questions.getD []).length +
                  (rawData.project_questions.getD []).length := by
  obtain ⟨j, raw, hrem, hj, hp, hn, hqs⟩ := generateQuestions_ok_inv h
  refine ⟨j, raw, hrem, hp, hqs, ?_⟩
  rw [hqs]
  simp

/-- C3 amended witness: the theorem applied at the one-question run:
the returned length is 1 + 0. -/
theorem claimC3_length_wit :
    (generateQuestions [TechStack.TypeScript] "" 5 (Except.ok (some "x")) c3parse 0) =
      (Except.ok [formatTechQ 0 0
        exGenQ], 1) ∧
    ([formatTechQ 0 0
        exGenQ] :
        List InterviewQuestion).length = 1 + 0 := by
  have h : generateQuestions [TechStack.TypeScript] "" 5 (Except.ok (some "x")) c3parse 0 =
      (Except.ok [formatTechQ 0 0
        exGenQ], 1) := rfl
  obtain ⟨j, raw, hrem, hp, hqs, hlen⟩ :=
    claimC3_length [TechStack.TypeScript] "" 5 (Except.ok (some "x")) c3parse 0 _ 1 h
  have hraw : raw = c3resp := by
    have hp2 : some c3resp = some raw := hp
    exact (Option.some.inj hp2).symm
  refine ⟨h, ?_⟩
  rw [hraw] at hlen
  simp at hlen
  simp [hlen]

theorem genResult_getElem_left (A B : List GeneratedQuestion) (ts i : Nat)
    (hi : i < A.length)
    (h : i < (A.mapIdx (formatTechQ ts) ++ B.mapIdx (formatProjQ ts)).length) :
    (A.mapIdx (formatTechQ ts) ++ B.mapIdx (formatProjQ ts))[i] =
      formatTechQ ts i A[i] := by
  have hi2 : i < (A.mapIdx (formatTechQ ts)).length := by simpa using hi
  rw [List.getElem_append_left hi2]
  have hmi := List.get_mapIdx A (formatTechQ ts) i hi hi2
  simp only [List.get_eq_getElem] at hmi
  exact hmi

theorem genResult_getElem_right (A B : List GeneratedQuestion) (ts i : Nat)
    (hiA : A.length ≤ i) (hb : i - A.length < B.length)
    (h : i < (A.mapIdx (formatTechQ ts) ++ B.mapIdx (formatProjQ ts)).length) :
    (A.mapIdx (formatTechQ ts) ++ B.mapIdx (formatProjQ ts))[i] =
      formatProjQ ts (i - A.length) B[i - A.length] := by
  have hiA2 : (A.mapIdx (formatTechQ ts)).length ≤ i := by simpa using hiA
  rw [List.getElem_append_right hiA2]
  have hb2 : i - (A.mapIdx (formatTechQ ts)).length < (B.mapIdx (formatProjQ ts)).length := by
    simpa using hb
  have := List.get_mapIdx B (formatProjQ ts) (i - (A.mapIdx (formatTechQ ts)).length)
    (by simpa using hb) hb2
  simp only [List.get_eq_getElem] at this
  simp only [List.length_mapIdx] at this ⊢
  exact this

theorem genResult_fields (A B : List GeneratedQuestion) (ts : Nat) :
    ∀ q ∈ A.mapIdx (formatTechQ ts) ++ B.mapIdx (formatProjQ ts),
      q.answer = none ∧ q.userAnswer = some "" ∧ q.followUps = some [] := by
  intro q hq
  rcases List.mem_append.mp hq with hqa | hqa
  · rw [List.mapIdx_eq_ofFn] at hqa
    rcases (List.mem_ofFn _ _).mp hqa with ⟨k, hk⟩
    rw [← hk]
    exact ⟨rfl, rfl, rfl⟩
  · rw [List.mapIdx_eq_ofFn] at hqa
    rcases (List.mem_ofFn _ _).mp hqa with ⟨k, hk⟩
    rw [← hk]
    exact ⟨rfl, rfl, rfl⟩

theorem genResult_sources_mono (A B : List GeneratedQuestion) (ts : Nat) :
    ∀ i j (hi : i < (A.mapIdx (formatTechQ ts) ++ B.mapIdx (formatProjQ ts)).length)
      (hj : j < (A.mapIdx (formatTechQ ts) ++ B.mapIdx (formatProjQ ts)).length), i ≤ j →
      ((A.mapIdx (formatTechQ ts) ++ B.mapIdx (formatProjQ ts))[i]).source =
        QuestionSource.project →
      ((A.mapIdx (formatTechQ ts) ++ B.mapIdx (formatProjQ ts))[j]).source =
        QuestionSource.project := by
  intro i j hi hj hij hsrc
  have hLlen : (A.mapIdx (formatTechQ ts) ++ B.mapIdx (formatProjQ ts)).length =
      A.length + B.length := by simp
  by_cases hiA : i < A.length
  · rw [genResult_getElem_left A B ts i hiA hi] at hsrc
    exact absurd hsrc (by simp [formatTechQ])
  · have hjA : A.length ≤ j := by omega
    have hb : j - A.length < B.length := by omega
    rw [genResult_getElem_right A B ts j hjA hb hj]
    rfl

theorem genResult_ids_nodup (A B : List GeneratedQuestion) (ts : Nat) :
    ((A.mapIdx (formatTechQ ts) ++ B.mapIdx (formatProjQ ts)).map
      (fun q => q.id)).Nodup := by
  rw [List.nodup_iff_injective_get]
  rintro ⟨i, hi⟩ ⟨j, hj⟩ hab
  simp only [List.length_map, List.length_append, List.length_mapIdx] at hi hj
  simp only [List.get_eq_getElem, List.getElem_map] at hab
  have hij : i = j := by
    by_cases hiA : i < A.length <;> by_cases hjA : j < A.length
    · rw [genResult_getElem_left A B ts i hiA (by simp; omega),
          genResult_getElem_left A B ts j hjA (by simp; omega)] at hab
      by_contra hne
      exact techId_inj ts hne hab
    · have hjb : j - A.length < B.length := by omega
      rw [genResult_getElem_left A B ts i hiA (by simp; omega),
          genResult_getElem_right A B ts j (by omega) hjb (by simp; omega)] at hab
      exact absurd hab (techId_ne_projId ts ts i (j - A.length))
    · have hib : i - A.length < B.length := by omega
      rw [genResult_getElem_right A B ts i (by omega) hib (by simp; omega),
          genResult_getElem_left A B ts j hjA (by simp; omega)] at hab
      exact absurd hab.symm (techId_ne_projId ts ts j (i - A.length))
    · have hib : i - A.length < B.length := by omega
      have hjb : j - A.length < B.length := by omega
      rw [genResult_getElem_right A B ts i (by omega) hib (by simp; omega),
          genResult_getElem_right A B ts j (by omega) hjb (by simp; omega)] at hab
      by_contra hne
      have hsub : ¬(i - A.length = j - A.length) := by omega
      exact projId_inj ts hsub hab
  exact Fin.ext hij

/-- C6: every sequence returned by a successful generation lists all
tech-derived questions before all project-derived ones (the source tag is
monotone along the sequence), every question has an empty user answer, no
feedback and no follow-ups, and the freshly assigned identifiers are
pairwise distinct within the sequence. -/
theorem claimC6_fresh_questions (sks : List TechStack) (description : String)
    (totalCount : Nat) (remote : Except Unit (Option String))
    (parse : String → Option QuestionsResponse) (ts : Nat)
    (qs : List InterviewQuestion) (n : Nat)
    (h : generateQuestions sks description totalCount remote parse ts = (Except.ok qs, n)) :
    (∀ q ∈ qs, q.answer = none ∧ q.userAnswer = some "" ∧ q.followUps = some []) ∧
    (∀ i j (hi : i < qs.length) (hj : j < qs.length), i ≤ j →
      qs[i].source = QuestionSource.project → qs[j].source = QuestionSource.project) ∧
    (qs.map (fun q => q.id)).Nodup := by
  obtain ⟨j, raw, hrem, hj, hp, hn, hqs⟩ := generateQuestions_ok_inv h
  subst hqs
  exact ⟨genResult_fields _ _ ts,
         genResult_sources_mono _ _ ts,
         genResult_ids_nodup _ _ ts⟩

/-- C6 witness: the theorem applied at a concrete successful run with one
tech and, via a response of two entries, checked on its concrete output. -/
theorem claimC6_fresh_questions_wit :
    (formatTechQ 0 0 exGenQ).answer = none ∧
    ([formatTechQ 0 0 exGenQ].map (fun q => q.id)).Nodup := by
  have h := claimC6_fresh_questions [TechStack.TypeScript] "" 5 (Except.ok (some "x"))
    c3parse 0 _ 1 rfl
  exact ⟨(h.1 _ (by decide)).1, h.2.2⟩

theorem find?_map_id_stable (g : InterviewQuestion → InterviewQuestion)
    (hid : ∀ q, (g q).id = q.id) (qs : List InterviewQuestion) (qid : String) :
    ∀ q, qs.find? (fun x => x.id = qid) = some q →
      (qs.map g).find? (fun x => x.id = qid) = some (g q) := by
  induction qs with
  | nil => intro q hq; simp at hq
  | cons a l ih =>
    intro q hq
    by_cases ha : a.id = qid
    · rw [List.find?_cons_of_pos _ (by simp [ha])] at hq
      have haq := Option.some.inj hq
      subst haq
      simp only [List.map_cons]
      rw [List.find?_cons_of_pos _ (by simp [hid, ha])]
    · rw [List.find?_cons_of_neg _ (by simp [ha])] at hq
      simp only [List.map_cons]
      rw [List.find?_cons_of_neg _ (by simp [hid, ha])]
      exact ih q hq

theorem preservesFeedback_pointwise (g : InterviewQuestion → InterviewQuestion)
    (hid : ∀ q, (g q).id = q.id) (hans : ∀ q, (g q).answer = q.answer)
    (op : GeneratorState → GeneratorState)
    (hop : ∀ st, (op st).questions = st.questions.map g) :
    PreservesFeedback op := by
  intro st qid q a hq ha hne
  refine ⟨g q, ?_, ?_⟩
  · rw [hop st]
    exact find?_map_id_stable g hid st.questions qid q hq
  · rw [hans q, ha]

/-- C2: feedback immutability. Every state transition of the program
either maps the active questions in place without touching a non-empty
feedback text (user-answer edit, both loading-flag commits and the
failure commit, the guarded feedback request itself — whose gateway call
is only issued when the question feedback is still absent — the
follow-up flow, and history deletion), or installs or stores question
records verbatim without editing any feedback field (generation keeps
every stored session; loading a session leaves the store untouched and
installs its records verbatim). -/
theorem claimC2_feedback_immutable :
    (∀ qid text, PreservesFeedback (handleUpdateUserAnswer qid text)) ∧
    (∀ qid, PreservesFeedback (handleGetAnswerStart qid)) ∧
    (∀ qid, PreservesFeedback (handleGetAnswerFailure qid)) ∧
    (∀ qid remote, PreservesFeedback (fun st => (handleGetFeedback qid remote st).1)) ∧
    (∀ qid, PreservesFeedback (handleAskFollowUpStart qid)) ∧
    (∀ qid fu, PreservesFeedback (handleAskFollowUpSuccess qid fu)) ∧
    (∀ qid fuq remote now,
      PreservesFeedback (fun st => (handleAskFollowUp qid fuq remote now st).1)) ∧
    (∀ sid, PreservesFeedback (deleteHistoryItem sid)) ∧
    (∀ remote parse now app, ∀ s ∈ app.gen.history,
      s ∈ (handleGenerate remote parse now app).1.gen.history) ∧
    (∀ session app, (loadHistoryItem session app).gen.history = app.gen.history ∧
      (loadHistoryItem session app).gen.questions = session.questions) := by
  have hstart : ∀ qid, PreservesFeedback (handleGetAnswerStart qid) := by
    intro qid
    exact preservesFeedback_pointwise _
      (fun q => by by_cases hc : q.id = qid <;> simp [hc])
      (fun q => by by_cases hc : q.id = qid <;> simp [hc]) _ (fun st => rfl)
  have hfustart : ∀ qid, PreservesFeedback (handleAskFollowUpStart qid) := by
    intro qid
    exact preservesFeedback_pointwise _
      (fun q => by by_cases hc : q.id = qid <;> simp [hc])
      (fun q => by by_cases hc : q.id = qid <;> simp [hc]) _ (fun st => rfl)
  have hfusucc : ∀ qid fu, PreservesFeedback (handleAskFollowUpSuccess qid fu) := by
    intro qid fu
    exact preservesFeedback_pointwise _
      (fun q => by by_cases hc : q.id = qid <;> simp [hc])
      (fun q => by by_cases hc : q.id = qid <;> simp [hc]) _ (fun st => rfl)
  refine ⟨?_, hstart, ?_, ?_, hfustart, hfusucc, ?_, ?_, ?_, ?_⟩
  · intro qid text
    exact preservesFeedback_pointwise _
      (fun q => by by_cases hc : q.id = qid <;> simp [hc])
      (fun q => by by_cases hc : q.id = qid <;> simp [hc]) _ (fun st => rfl)
  · intro qid
    exact preservesFeedback_pointwise _
      (fun q => by by_cases hc : q.id = qid <;> simp [hc])
      (fun q => by by_cases hc : q.id = qid <;> simp [hc]) _ (fun st => rfl)
  · intro qid0 remote st qid q a hq ha hne
    unfold handleGetFeedback
    cases hfind : st.questions.find? (fun x => x.id = qid0) with
    | none => exact ⟨q, by simp only [hfind]; exact hq, ha⟩
    | some q0 =>
      simp only [hfind]
      by_cases hcond : q0.answer.getD "" = "" ∧ q0.isAnswerLoading = false
      · rw [if_pos hcond]
        unfold handleGetAnswer
        rw [hfind]
        by_cases hqq : qid = qid0
        · subst hqq
          rw [hfind] at hq
          have hq0 := Option.some.inj hq
          subst hq0
          rw [ha] at hcond
          simp only [Option.getD_some] at hcond
          exact absurd hcond.1 hne
        · have hqid : q.id = qid := by
            have hps := List.find?_some hq
            simpa using hps
          have hgne : ¬(q.id = qid0) := by rw [hqid]; exact hqq
          have h1 := find?_map_id_stable
            (fun x => if x.id = qid0 then { x with isAnswerLoading := true } else x)
            (fun x => by by_cases hc : x.id = qid0 <;> simp [hc]) st.questions qid q hq
          have h2 := find?_map_id_stable (fun x => if x.id = qid0 then { x with answer := some (generateAnswer q0.question st.selectedStacks st.projectDescription (some (q0.userAnswer.getD "")) remote), isAnswerLoading := false } else x) (fun x => by by_cases hc : x.id = qid0 <;> simp [hc]) _ qid _ h1
          refine ⟨_, h2, ?_⟩
          simp [hgne, ha]
      · rw [if_neg hcond]
        exact ⟨q, hq, ha⟩
  · intro qid0 fuq remote now st qid q a hq ha hne
    unfold handleAskFollowUp
    cases hfind : st.questions.find? (fun x => x.id = qid0) with
    | none => exact ⟨q, by simp only [hfind]; exact hq, ha⟩
    | some q0 =>
      simp only [hfind]
      obtain ⟨q1, hq1, ha1⟩ := hfustart qid0 st qid q a hq ha hne
      obtain ⟨q2, hq2, ha2⟩ := hfusucc qid0
        { id := toString now, question := fuq,
          answer := generateFollowUp q0.question st.selectedStacks st.projectDescription
            q0.userAnswer q0.answer fuq (q0.followUps.getD []) remote, timestamp := now }
        (handleAskFollowUpStart qid0 st) qid q1 a hq1 ha1 hne
      exact ⟨q2, hq2, ha2⟩
  · intro sid st qid q a hq ha hne
    exact ⟨q, hq, ha⟩
  · intro remote parse now app s hs
    unfold handleGenerate
    by_cases hg : app.gen.selectedStacks.length = 0 ∧
        (jsTrim app.gen.projectDescription).length < 5
    · rw [if_pos hg]
      exact hs
    · rw [if_neg hg]
      rcases hgen : generateQuestions app.gen.selectedStacks app.gen.projectDescription
          app.gen.questionCount remote parse now with ⟨res, calls⟩
      cases res with
      | ok qs => exact List.mem_cons_of_mem _ hs
      | error e => exact hs
  · intro session app
    exact ⟨rfl, rfl⟩

/-- C2 witness: re-requesting feedback for question `"2"` of `exState2`,
which already carries the non-empty feedback `"feedback text"`, leaves
that feedback unchanged even though the oracle would return new text. -/
theorem claimC2_feedback_immutable_wit :
    ((handleGetFeedback "2" (Except.ok (some "new")) exState2).1.questions.find?
      (fun x => x.id = "2")).map (fun x => x.answer) = some (some "feedback text") := by
  obtain ⟨q1, hfind, hans⟩ := claimC2_feedback_immutable.2.2.2.1 "2" (Except.ok (some "new"))
    exState2 "2" exQ2 "feedback text" (by decide) rfl (by decide)
  rw [hfind]
  simp [hans]
